import Mathlib

/-!
Shallow embedding of the style-resolution and block-layout engine of the
`simple-browser-rs` repository (files `src/css_parser.rs`, `src/dom.rs`,
`src/style.rs`, `src/layout.rs`), together with theorems settling the
frozen claims about it.

Modelling conventions:
* Rust `f32` pixel arithmetic is modelled over `ℚ`; every computation the
  claims touch uses small exactly-representable values, so the arithmetic
  agrees with `f32`.
* `std::collections::HashMap` property maps are modelled as functions
  `String → Option Value` (insert = pointwise update, get = application).
* Rust's stable `sort_by` is modelled by `List.insertionSort`, which is a
  stable sort.
* A Rust `panic!` is modelled by returning `Option.none`.
-/

namespace SimpleBrowser

/-! ## CSS data model (`src/css_parser.rs`) -/

/-- Rust `Color` from `css_parser.rs` (8-bit channels, modelled as `ℕ`). -/
structure Color where
  r : ℕ
  g : ℕ
  b : ℕ
  a : ℕ
deriving DecidableEq

/-- Rust `Unit` from `css_parser.rs` (renamed: `Unit` is taken by Lean's unit type).
Only pixels are supported. -/
inductive CSSUnit
  | px
deriving DecidableEq

/-- Rust `Value` from `css_parser.rs`. -/
inductive Value
  | keyword (s : String)
  | length (f : ℚ) (u : CSSUnit)
  | colorValue (c : Color)
deriving DecidableEq

/-- Rust `Value::to_px` from `css_parser.rs`. -/
def Value.to_px : Value → ℚ
  | .length f .px => f
  | _ => 0

/-- Rust `SimpleSelector` from `css_parser.rs`.  The field `class` is renamed
`cls` (`class` is a Lean keyword). -/
structure SimpleSelector where
  tag_name : Option String
  id : Option String
  cls : List String
deriving DecidableEq

/-- Rust `Selector` from `css_parser.rs`. -/
inductive Selector
  | simple (s : SimpleSelector)
deriving DecidableEq

/-- Rust `Specificity` from `css_parser.rs`: `(usize, usize, usize)`. -/
abbrev Specificity := ℕ × ℕ × ℕ

/-- Rust `Selector::specificity` from `css_parser.rs`: `Option::iter().count()`
is the length of the option viewed as a list. -/
def Selector.specificity : Selector → Specificity
  | .simple s =>
      (s.id.toList.length, s.cls.length, s.tag_name.toList.length)

/-- Rust's `Ord` for `(usize, usize, usize)` compares lexicographically:
this is the strict part of that order. -/
def specLt (s t : Specificity) : Prop :=
  s.1 < t.1 ∨ (s.1 = t.1 ∧ (s.2.1 < t.2.1 ∨ (s.2.1 = t.2.1 ∧ s.2.2 < t.2.2)))

/-- The (non-strict) lexicographic order on specificities used by both
`sort_by_key` in `parse_selectors` and `sort_by` in `specified_values`. -/
def specLe (s t : Specificity) : Prop :=
  s.1 < t.1 ∨ (s.1 = t.1 ∧ (s.2.1 < t.2.1 ∨ (s.2.1 = t.2.1 ∧ s.2.2 ≤ t.2.2)))

instance (s t : Specificity) : Decidable (specLt s t) := by
  unfold specLt; infer_instance

instance (s t : Specificity) : Decidable (specLe s t) := by
  unfold specLe; infer_instance

/-- Rust `Declaration` from `css_parser.rs`. -/
structure Declaration where
  name : String
  value : Value
deriving DecidableEq

/-- Rust `Rule` from `css_parser.rs`. -/
structure Rule where
  selectors : List Selector
  declarations : List Declaration
deriving DecidableEq

/-- Rust `StyleSheet` from `css_parser.rs`. -/
structure StyleSheet where
  rules : List Rule

/-- The comparison key used by `parse_selectors`'s
`selectors.sort_by_key(|s| s.specificity())`: selectors are ordered by
specificity, ascending. -/
def selectorLe (a b : Selector) : Prop :=
  specLe a.specificity b.specificity

instance (a b : Selector) : Decidable (selectorLe a b) := by
  unfold selectorLe; infer_instance

/-! ## DOM (`src/dom.rs`) -/

/-- Rust `AttributeMap` from `dom.rs`: a `HashMap<String, String>` with at most
one value per key, modelled as an association list. -/
abbrev AttributeMap := List (String × String)

/-- Rust `ElementData` from `dom.rs`. -/
structure ElementData where
  tag_name : String
  attributes : AttributeMap

/-- Rust `ElementData::id` from `dom.rs`. -/
def ElementData.id (e : ElementData) : Option String :=
  e.attributes.lookup "id"

/-- Model of Rust `str::split(sep)` for a single separator character:
splits at every occurrence of `sep`, keeping empty pieces exactly as Rust
does (`"a  b"` → `["a", "", "b"]`, `""` → `[""]`). -/
def splitChar (sep : Char) (s : String) : List String :=
  (s.data.foldr
    (fun c acc =>
      if c = sep then [] :: acc
      else (c :: acc.headD []) :: acc.tail)
    [[]]).map (fun cs => String.mk cs)

/-- Rust `ElementData::classes` from `dom.rs`: split the `class` attribute on
single spaces.  The Rust code collects into a `HashSet<&str>` that is only
queried for membership, so a list models it. -/
def ElementData.classes (e : ElementData) : List String :=
  match e.attributes.lookup "class" with
  | some classes => splitChar ' ' classes
  | none => []

/-! ## Style resolution (`src/style.rs`) -/

/-- Rust `PropertyMap` from `style.rs`: a `HashMap<String, Value>` modelled as a
function (get = application, insert = pointwise update). -/
abbrev PropertyMap := String → Option Value

/-- Rust `matches_simple_selector` from `style.rs`.  Note the class branch: the
negation is outside the `any`, exactly as in the source. -/
def matches_simple_selector (elem : ElementData) (selector : SimpleSelector) :
    Bool :=
  -- Check type selector.
  if selector.tag_name.any (fun name => elem.tag_name != name) then false
  -- Check id selector.
  else if selector.id.any (fun id => elem.id != some id) then false
  -- Check class selector.
  else if ! selector.cls.any (fun c => (elem.classes).contains c) then false
  else true

/-- Rust `matches` from `style.rs` (guillemets: `matches` is a Lean keyword). -/
def «matches» (elem : ElementData) (selector : Selector) : Bool :=
  match selector with
  | .simple s => matches_simple_selector elem s

/-- Rust `MatchedRule` from `style.rs` (the rule is borrowed in Rust; the model
stores it by value). -/
abbrev MatchedRule := Specificity × Rule

/-- Rust `match_rule` from `style.rs`: the first selector (in the rule's stored
order) that matches supplies the recorded specificity. -/
def match_rule (elem : ElementData) (rule : Rule) : Option MatchedRule :=
  (rule.selectors.find? (fun selector => «matches» elem selector)).map
    (fun selector => (selector.specificity, rule))

/-- Rust `matching_rules` from `style.rs`. -/
def matching_rules (elem : ElementData) (stylesheet : StyleSheet) :
    List MatchedRule :=
  stylesheet.rules.filterMap (fun rule => match_rule elem rule)

/-- The comparison used by `specified_values`'s
`rules.sort_by(|a, b| a.0.cmp(&b.0))`. -/
def matchedRuleLe (a b : MatchedRule) : Prop :=
  specLe a.1 b.1

instance (a b : MatchedRule) : Decidable (matchedRuleLe a b) := by
  unfold matchedRuleLe; infer_instance

instance : IsTotal MatchedRule matchedRuleLe :=
  ⟨fun _ _ => by unfold matchedRuleLe specLe; omega⟩

instance : IsTrans MatchedRule matchedRuleLe :=
  ⟨fun _ _ _ h₁ h₂ => by unfold matchedRuleLe specLe at *; omega⟩

/-- The matched rules sorted by specificity, ascending.  Rust's `sort_by`
is a stable sort; `List.insertionSort` is stable. -/
def sortedMatchingRules (elem : ElementData) (stylesheet : StyleSheet) :
    List MatchedRule :=
  List.insertionSort matchedRuleLe (matching_rules elem stylesheet)

/-- One `values.insert(declaration.name, declaration.value)` step. -/
def insertDecl (values : PropertyMap) (declaration : Declaration) :
    PropertyMap :=
  fun name =>
    if name = declaration.name then some declaration.value else values name

/-- Rust `specified_values` from `style.rs`. -/
def specified_values (elem : ElementData) (stylesheet : StyleSheet) :
    PropertyMap :=
  (sortedMatchingRules elem stylesheet).foldl
    (fun values rule => rule.2.declarations.foldl insertDecl values)
    (fun _ => none)

/-- Rust `StyledNode` from `style.rs`.  The `node` back-reference into the DOM
is never read by style lookup or layout, so the model omits it. -/
structure StyledNode where
  specified_values : PropertyMap
  children : List StyledNode

/-- Rust `Display` from `style.rs`. -/
inductive Display
  | inlineD
  | block
  | noneD
deriving DecidableEq

/-- Rust `StyledNode::value` from `style.rs`. -/
def StyledNode.value (s : StyledNode) (property_name : String) :
    Option Value :=
  s.specified_values property_name

/-- Rust `StyledNode::lookup` from `style.rs`. -/
def StyledNode.lookup (s : StyledNode)
    (property_name fallback_name : String) (default : Value) : Value :=
  (s.value property_name).getD ((s.value fallback_name).getD default)

/-- Rust `StyledNode::display` from `style.rs`. -/
def StyledNode.display (s : StyledNode) : Display :=
  match s.value "display" with
  | some (.keyword kw) =>
      match kw with
      | "block" => .block
      | "none" => .noneD
      | _ => .inlineD
  | _ => .inlineD

/-! ## Layout (`src/layout.rs`) -/

/-- Rust `Rectangle` from `layout.rs` (f32 modelled as `ℚ`). -/
@[ext]
structure Rectangle where
  x : ℚ
  y : ℚ
  width : ℚ
  height : ℚ
deriving DecidableEq

/-- Rust `EdgeSizes` from `layout.rs`. -/
@[ext]
structure EdgeSizes where
  left : ℚ
  right : ℚ
  top : ℚ
  bottom : ℚ
deriving DecidableEq

/-- Rust `Dimensions` from `layout.rs`. -/
@[ext]
structure Dimensions where
  content : Rectangle
  padding : EdgeSizes
  border : EdgeSizes
  margin : EdgeSizes
deriving DecidableEq

/-- Rust `Default::default()` for `Rectangle`: all zero. -/
def defaultRectangle : Rectangle := ⟨0, 0, 0, 0⟩

/-- Rust `Default::default()` for `EdgeSizes`: all zero. -/
def defaultEdgeSizes : EdgeSizes := ⟨0, 0, 0, 0⟩

/-- Rust `Default::default()` for `Dimensions`: all zero, as used by
`LayoutBox::new`. -/
def defaultDimensions : Dimensions :=
  ⟨defaultRectangle, defaultEdgeSizes, defaultEdgeSizes, defaultEdgeSizes⟩

/-- Rust `Rectangle::expanded_by` from `layout.rs`. -/
def Rectangle.expanded_by (self : Rectangle) (edge : EdgeSizes) : Rectangle :=
  { x := self.x - edge.left
    y := self.y - edge.top
    width := self.width + edge.left + edge.right
    height := self.height + edge.top + edge.bottom }

/-- Rust `Dimensions::padding_box` from `layout.rs`. -/
def Dimensions.padding_box (self : Dimensions) : Rectangle :=
  self.content.expanded_by self.padding

/-- Rust `Dimensions::border_box` from `layout.rs`. -/
def Dimensions.border_box (self : Dimensions) : Rectangle :=
  self.padding_box.expanded_by self.border

/-- Rust `Dimensions::margin_box` from `layout.rs`. -/
def Dimensions.margin_box (self : Dimensions) : Rectangle :=
  self.border_box.expanded_by self.margin

/-- Rust `BoxType` from `layout.rs` (the styled node is borrowed in Rust; the
model stores it by value). -/
inductive BoxType
  | blockNode (node : StyledNode)
  | inlineNode (node : StyledNode)
  | anonymousBlock

/-- Rust `LayoutBox` from `layout.rs`. -/
structure LayoutBox where
  dimensions : Dimensions
  box_type : BoxType
  children : List LayoutBox

/-- Rust `LayoutBox::get_style_node` from `layout.rs`; the panic on an
anonymous block is modelled as `none`. -/
def LayoutBox.get_style_node (self : LayoutBox) : Option StyledNode :=
  match self.box_type with
  | .blockNode node => some node
  | .inlineNode node => some node
  | .anonymousBlock => none

mutual
/-- Rust `build_layout_tree` from `layout.rs`.  The panic on a
`display: none` root is modelled as `none`. -/
def build_layout_tree : (style_node : StyledNode) → Option LayoutBox
  | ⟨sv, children⟩ =>
      match StyledNode.display ⟨sv, children⟩ with
      | .block =>
          some ⟨defaultDimensions, .blockNode ⟨sv, children⟩,
                buildLayoutChildren children⟩
      | .inlineD =>
          some ⟨defaultDimensions, .inlineNode ⟨sv, children⟩,
                buildLayoutChildren children⟩
      | .noneD => none
termination_by structural style_node => style_node

/-- The child loop of `build_layout_tree`: `Display::None` children are
dropped, the others are converted recursively and appended in document
order (the recursive calls cannot hit the root panic because a pushed
child's display is `Block` or `Inline`). -/
def buildLayoutChildren : (cs : List StyledNode) → List LayoutBox
  | [] => []
  | child :: rest =>
      match build_layout_tree child with
      | some box => box :: buildLayoutChildren rest
      | none => buildLayoutChildren rest
termination_by structural cs => cs
end

/-- Rust `sum` from `layout.rs` (`iter.fold(0., |acc, x| acc + x)`). -/
def sum (l : List ℚ) : ℚ :=
  l.foldl (· + ·) 0

/-- Rust `LayoutBox::calc_block_width` from `layout.rs`, as a pure function
from the box's style node, its current dimensions `d` (the mutated
`self.dimensions`) and the containing block.  The shadowed `let`s mirror
the Rust mutations in order, including the over-constrained adjustment
happening before the `match` and `underflow` being computed from the
original `total`. -/
def calc_block_width (style : StyledNode) (d : Dimensions)
    (containing_block : Dimensions) : Dimensions :=
  let auto := Value.keyword "auto"
  let width := (style.value "width").getD auto
  let zero := Value.length 0 .px
  let margin_left := style.lookup "margin-left" "margin" zero
  let margin_right := style.lookup "margin-right" "margin" zero
  let padding_left := style.lookup "padding-left" "padding" zero
  let padding_right := style.lookup "padding-right" "padding" zero
  let border_left := style.lookup "border-left-width" "border" zero
  let border_right := style.lookup "border-right-width" "border" zero
  let total := sum ([margin_left, margin_right, padding_left, padding_right,
    border_left, border_right, width].map Value.to_px)
  let margin_left :=
    if width ≠ auto ∧ total > containing_block.content.width ∧
        margin_left = auto then zero else margin_left
  let margin_right :=
    if width ≠ auto ∧ total > containing_block.content.width ∧
        margin_right = auto then zero else margin_right
  let underflow := containing_block.content.width - total
  -- the `match (width == auto, margin_left == auto, margin_right == auto)`
  let wmm : Value × Value × Value :=
    if width = auto then
      -- `(true, _, _)`: in the source the auto margins are set to
      -- `underflow` (not zero), then width is resolved
      let margin_left :=
        if margin_left = auto then Value.length underflow .px else margin_left
      let margin_right :=
        if margin_right = auto then Value.length underflow .px else margin_right
      if underflow ≥ 0 then
        (Value.length underflow .px, margin_left, margin_right)
      else
        (Value.length 0 .px, margin_left,
         Value.length (margin_right.to_px + underflow) .px)
    else if margin_left = auto then
      if margin_right = auto then
        -- `(false, true, true)`
        (width, Value.length (underflow / 2) .px,
         Value.length (underflow / 2) .px)
      else
        -- `(false, true, false)`
        (width, Value.length underflow .px, margin_right)
    else
      if margin_right = auto then
        -- `(false, false, true)`
        (width, margin_left, Value.length underflow .px)
      else
        -- `(false, false, false)`
        (width, margin_left,
         Value.length (margin_right.to_px + underflow) .px)
  { d with
    content.width := wmm.1.to_px
    margin.left := wmm.2.1.to_px
    margin.right := wmm.2.2.to_px
    padding.left := padding_left.to_px
    padding.right := padding_right.to_px
    border.left := border_left.to_px
    border.right := border_right.to_px }

/-- Rust `LayoutBox::calc_block_position` from `layout.rs`.  Note the
fallback property names: vertical border widths fall back to
`"border-width"` while `calc_block_width` used `"border"`. -/
def calc_block_position (style : StyledNode) (d : Dimensions)
    (containing_block : Dimensions) : Dimensions :=
  let zero := Value.length 0 .px
  let margin_top := (style.lookup "margin-top" "margin" zero).to_px
  let margin_bottom := (style.lookup "margin-bottom" "margin" zero).to_px
  let border_top := (style.lookup "border-top-width" "border-width" zero).to_px
  let border_bottom :=
    (style.lookup "border-bottom-width" "border-width" zero).to_px
  let padding_top := (style.lookup "padding-top" "padding" zero).to_px
  let padding_bottom := (style.lookup "padding-bottom" "padding" zero).to_px
  { d with
    margin.top := margin_top
    margin.bottom := margin_bottom
    border.top := border_top
    border.bottom := border_bottom
    padding.top := padding_top
    padding.bottom := padding_bottom
    content.x := containing_block.content.x + d.margin.left + d.border.left
      + d.padding.left
    content.y := containing_block.content.height + containing_block.content.y
      + margin_top + border_top + padding_top }

/-- Rust `LayoutBox::calc_block_height` from `layout.rs`. -/
def calc_block_height (style : StyledNode) (d : Dimensions) : Dimensions :=
  match style.value "height" with
  | some (.length h .px) => { d with content.height := h }
  | _ => d

mutual
/-- Rust `LayoutBox::layout` and `LayoutBox::layout_block` from `layout.rs`
(`layout_block`'s four phases are inlined so the mutual recursion is
between `layout` and `layout_block_children`); inline and anonymous boxes
are `TODO` no-ops in the source. -/
def layout (box : LayoutBox) (containing_block : Dimensions) : LayoutBox :=
  match box with
  | ⟨d, .blockNode node, children⟩ =>
      -- layout_block:
      let d1 := calc_block_width node d containing_block
      let d2 := calc_block_position node d1 containing_block
      let cd := layout_block_children children d2
      let d4 := calc_block_height node cd.2
      ⟨d4, .blockNode node, cd.1⟩
  | box => box
termination_by structural box

/-- Rust `LayoutBox::layout_block_children` from `layout.rs`, threading the
parent's `self.dimensions` explicitly: each child is laid out against the
current dimensions, then the parent's content height grows by the child's
margin-box height. -/
def layout_block_children :
    (children : List LayoutBox) → Dimensions → List LayoutBox × Dimensions
  | [], d => ([], d)
  | child :: rest, d =>
      let child' := layout child d
      let d' :=
        { d with content.height :=
            d.content.height + (child'.dimensions.margin_box).height }
      let rd := layout_block_children rest d'
      (child' :: rd.1, rd.2)
termination_by structural children => children
end

/-- Whether a layout box is a block node (the only kind `layout` acts
on). -/
def LayoutBox.isBlock (b : LayoutBox) : Bool :=
  match b.box_type with
  | .blockNode _ => true
  | _ => false

/-- Sum of the margin-box heights of a list of boxes — what
`layout_block_children` accumulates into the parent's content height. -/
def marginBoxHeights (cs : List LayoutBox) : ℚ :=
  (cs.map (fun c => (c.dimensions.margin_box).height)).sum

/-- The declarations of the sorted matched rules, concatenated in
application order: `specified_values` inserts exactly these, left to
right. -/
def appliedDeclarations (elem : ElementData) (stylesheet : StyleSheet) :
    List Declaration :=
  ((sortedMatchingRules elem stylesheet).map
    (fun rule => rule.2.declarations)).flatten

/-! ## Concrete fixtures used by the claims -/

/-- Finite property maps for concrete fixtures (first binding wins; all
fixture key lists are duplicate-free). -/
def propMap (l : List (String × Value)) : PropertyMap :=
  fun name => l.lookup name

/-- An element `<div class="a">`. -/
def elemDivA : ElementData := ⟨"div", [("class", "a")]⟩

/-- A plain element `<div>` with no attributes. -/
def elemDiv : ElementData := ⟨"div", []⟩

/-- The universal selector `*`: no tag, no id, no classes (exactly what
`parse_simple_selector` produces for `*`). -/
def universalSelector : SimpleSelector := ⟨none, none, []⟩

/-- Selector `.a`, specificity `(0, 1, 0)`. -/
def selA : Selector := .simple ⟨none, none, ["a"]⟩

/-- Selector `.a.b`, specificity `(0, 2, 0)`. -/
def selAB : Selector := .simple ⟨none, none, ["a", "b"]⟩

/-- A rule whose selector list is sorted ascending by specificity, as
`parse_selectors` leaves it: `.a, .a.b { }`. -/
def ruleC1 : Rule := ⟨[selA, selAB], []⟩

/-- A containing block whose content area is 800 wide (all else zero). -/
def cb800 : Dimensions := { defaultDimensions with content.width := 800 }

/-- Style with `width` unset (auto) and `margin-left: auto`. -/
def snAutoMargin : StyledNode :=
  ⟨propMap [("margin-left", .keyword "auto")], []⟩

/-- Style `width: 200px; margin-left: auto; margin-right: auto`. -/
def snCentered : StyledNode :=
  ⟨propMap [("width", .length 200 .px), ("margin-left", .keyword "auto"),
            ("margin-right", .keyword "auto")], []⟩

/-- Style declaring only `border: 5px`. -/
def snBorder : StyledNode := ⟨propMap [("border", .length 5 .px)], []⟩

/-- Style declaring only `border-width: 5px`. -/
def snBorderWidth : StyledNode :=
  ⟨propMap [("border-width", .length 5 .px)], []⟩

/-- Block styled leaf with an explicit pixel height. -/
def snBlockH (h : ℚ) : StyledNode :=
  ⟨propMap [("display", .keyword "block"), ("height", .length h .px)], []⟩

/-- Block styled node with no explicit height and one 50px-high block
child. -/
def snParent50 : StyledNode :=
  ⟨propMap [("display", .keyword "block")], [snBlockH 50]⟩

/-- The layout box the pipeline builds for `snParent50` (the `build`
cannot fail: the root display is `block`). -/
def boxParent50 : LayoutBox :=
  (build_layout_tree snParent50).getD ⟨defaultDimensions, .anonymousBlock, []⟩

/-- Block styled node with two block children of heights 50px and 30px. -/
def snParent5030 : StyledNode :=
  ⟨propMap [("display", .keyword "block")], [snBlockH 50, snBlockH 30]⟩

/-- The layout box built for `snParent5030`. -/
def boxParent5030 : LayoutBox :=
  (build_layout_tree snParent5030).getD ⟨defaultDimensions, .anonymousBlock, []⟩

/-- Styled node with `display: none`. -/
def snNone : StyledNode := ⟨propMap [("display", .keyword "none")], []⟩

/-- Block styled node whose children are, in order: a block child, a
`display: none` child, and an inline (default display) child. -/
def snMixed : StyledNode :=
  ⟨propMap [("display", .keyword "block")],
    [snBlockH 50, snNone, ⟨propMap [], []⟩]⟩

end SimpleBrowser

namespace SimpleBrowser

/-! ## Order lemmas for specificities -/

theorem specLe_refl (s : Specificity) : specLe s s := by
  unfold specLe; omega

theorem specLe_trans {s t u : Specificity} (h₁ : specLe s t)
    (h₂ : specLe t u) : specLe s u := by
  unfold specLe at *; omega

theorem not_specLe_iff {s t : Specificity} : ¬ specLe s t ↔ specLt t s := by
  unfold specLe specLt; omega

/-! ## C7: an id strictly outranks any id-less selector -/

/-- C7: for any pair of simple selectors where the first has an id and the
second does not, the second's specificity tuple is strictly below the
first's in the lexicographic order used by the cascade, whatever the
second's class and tag counts; and in particular `(0,9,9) < (1,0,0)`. -/
theorem id_selector_outranks :
    (∀ s₁ s₂ : SimpleSelector, s₁.id.isSome → s₂.id = none →
      specLt (Selector.specificity (.simple s₂))
        (Selector.specificity (.simple s₁)))
    ∧ specLt (0, 9, 9) (1, 0, 0) := by
  constructor
  · intro s₁ s₂ h₁ h₂
    obtain ⟨v, hv⟩ := Option.isSome_iff_exists.mp h₁
    simp [Selector.specificity, hv, h₂, specLt]
  · decide

/-- Witness for C7 at concrete selectors `div.a` (no id) versus `#main`. -/
theorem id_selector_outranks_witness :
    specLt (Selector.specificity (.simple ⟨some "div", none, ["a"]⟩))
      (Selector.specificity (.simple ⟨none, some "main", []⟩)) :=
  id_selector_outranks.1 ⟨none, some "main", []⟩ ⟨some "div", none, ["a"]⟩
    (by decide) rfl

/-! ## C1: which specificity `match_rule` records -/

/-- Helper: the element `find?` returns from a list sorted ascending by
specificity has the least specificity among all elements satisfying the
predicate. -/
theorem find?_specificity_min {l : List Selector}
    (hs : List.Sorted selectorLe l) {p : Selector → Bool} {sel : Selector}
    (h : l.find? p = some sel) :
    ∀ x ∈ l, p x = true → specLe sel.specificity x.specificity := by
  induction l with
  | nil => simp at h
  | cons a t ih =>
      rw [List.find?_cons] at h
      by_cases hpa : p a
      · simp [hpa] at h
        subst h
        intro x hx _
        rcases List.mem_cons.mp hx with hx | hx
        · subst hx; exact specLe_refl _
        · exact (List.sorted_cons.mp hs).1 x hx
      · simp [hpa] at h
        intro x hx hpx
        rcases List.mem_cons.mp hx with hx | hx
        · subst hx; exact absurd hpx hpa
        · exact ih (List.sorted_cons.mp hs).2 h x hx hpx

/-- C1 (amended): for a rule whose selector list is sorted ascending by
specificity — which is how `parse_selectors` leaves it — `match_rule`
records the specificity of the first matching selector, which is the
minimum (not the maximum) specificity over the rule's matching
selectors. -/
theorem match_rule_records_min_specificity (elem : ElementData) (rule : Rule)
    (hsorted : List.Sorted selectorLe rule.selectors)
    (s : Specificity) (r : Rule) (h : match_rule elem rule = some (s, r)) :
    r = rule
    ∧ (∃ sel ∈ rule.selectors, «matches» elem sel = true
        ∧ sel.specificity = s)
    ∧ ∀ sel ∈ rule.selectors, «matches» elem sel = true →
        specLe s sel.specificity := by
  unfold match_rule at h
  cases hf : rule.selectors.find? (fun selector => «matches» elem selector) with
  | none => rw [hf] at h; simp at h
  | some sel =>
      rw [hf, Option.map_some'] at h
      have hpair := Option.some.inj h
      have hs : sel.specificity = s := congrArg Prod.fst hpair
      have hr : rule = r := congrArg Prod.snd hpair
      refine ⟨hr.symm, ⟨sel, List.mem_of_find?_eq_some hf,
        List.find?_some hf, hs⟩, ?_⟩
      intro x hx hpx
      exact hs ▸ find?_specificity_min hsorted hf x hx hpx

/-- Witness for the amended C1 at the concrete rule `.a, .a.b { }` and the
element `<div class="a">`: both selectors match and the recorded
specificity is the lower `(0, 1, 0)`. -/
theorem match_rule_records_min_specificity_witness :
    ruleC1 = ruleC1
    ∧ (∃ sel ∈ ruleC1.selectors, «matches» elemDivA sel = true
        ∧ sel.specificity = (0, 1, 0))
    ∧ ∀ sel ∈ ruleC1.selectors, «matches» elemDivA sel = true →
        specLe (0, 1, 0) sel.specificity :=
  match_rule_records_min_specificity elemDivA ruleC1 (by decide)
    (0, 1, 0) ruleC1 (by decide)

/-- Counterexample to C1 as stated: in the (ascending-sorted) rule
`.a, .a.b { }` matched against `<div class="a">`, both selectors match,
the highest matching specificity is `(0, 2, 0)`, yet the recorded
specificity is `(0, 1, 0)`. -/
theorem match_rule_not_max_specificity :
    List.Sorted selectorLe ruleC1.selectors
    ∧ match_rule elemDivA ruleC1 = some ((0, 1, 0), ruleC1)
    ∧ selAB ∈ ruleC1.selectors
    ∧ «matches» elemDivA selAB = true
    ∧ Selector.specificity selAB = (0, 2, 0)
    ∧ ¬ specLe (0, 2, 0) (0, 1, 0) := by
  decide

/-! ## C9: `build_layout_tree` on `display: none` -/

/-- Helper: building fails exactly on a `display: none` (root) node. -/
theorem build_layout_tree_eq_none_iff (s : StyledNode) :
    build_layout_tree s = none ↔ s.display = Display.noneD := by
  cases s with
  | mk sv cs =>
      rw [build_layout_tree]
      cases h : StyledNode.display ⟨sv, cs⟩ <;> simp [h]

/-- Helper: the built children correspond, in document order, exactly to
the styled children whose display is not `none`. -/
theorem buildLayoutChildren_forall₂ (cs : List StyledNode) :
    List.Forall₂ (fun c box => build_layout_tree c = some box)
      (cs.filter (fun c => c.display ≠ Display.noneD))
      (buildLayoutChildren cs) := by
  induction cs with
  | nil => simp [buildLayoutChildren]
  | cons c t ih =>
      rw [buildLayoutChildren]
      cases hb : build_layout_tree c with
      | some box =>
          have hc : ¬ c.display = Display.noneD := by
            intro hd
            rw [← build_layout_tree_eq_none_iff] at hd
            rw [hd] at hb; cases hb
          have hcons : List.Forall₂
              (fun c box => build_layout_tree c = some box)
              (c :: t.filter (fun c => c.display ≠ Display.noneD))
              (box :: buildLayoutChildren t) := List.Forall₂.cons hb ih
          simpa [List.filter_cons, hc] using hcons
      | none =>
          have hc : c.display = Display.noneD :=
            (build_layout_tree_eq_none_iff c).mp hb
          simpa [List.filter_cons, hc] using ih

/-- C9: a root styled node resolving to `display: none` makes
`build_layout_tree` fail (the modelled panic), and a successful build
keeps, in document order, exactly the recursively built boxes of the
children whose display is not `none` — `none` children produce no box. -/
theorem build_layout_tree_none_fatal (s : StyledNode) (b : LayoutBox) :
    (build_layout_tree s = none ↔ s.display = Display.noneD)
    ∧ (build_layout_tree s = some b →
        List.Forall₂ (fun c box => build_layout_tree c = some box)
          (s.children.filter (fun c => c.display ≠ Display.noneD))
          b.children) := by
  refine ⟨build_layout_tree_eq_none_iff s, ?_⟩
  intro hb
  cases s with
  | mk sv cs =>
      rw [build_layout_tree] at hb
      cases h : StyledNode.display ⟨sv, cs⟩ <;> rw [h] at hb
      · have hb' := Option.some.inj hb
        subst hb'
        simpa using buildLayoutChildren_forall₂ cs
      · have hb' := Option.some.inj hb
        subst hb'
        simpa using buildLayoutChildren_forall₂ cs
      · cases hb

/-- Witness for C9: the `display: none` fixture is rejected, and building
the mixed-children fixture drops exactly its `display: none` child. -/
theorem build_layout_tree_none_fatal_witness :
    build_layout_tree snNone = none
    ∧ List.Forall₂ (fun c box => build_layout_tree c = some box)
        (snMixed.children.filter (fun c => c.display ≠ Display.noneD))
        (⟨defaultDimensions, .blockNode snMixed,
          buildLayoutChildren snMixed.children⟩ : LayoutBox).children :=
  ⟨(build_layout_tree_none_fatal snNone
      ⟨defaultDimensions, .anonymousBlock, []⟩).1.mpr (by decide),
   (build_layout_tree_none_fatal snMixed
      ⟨defaultDimensions, .blockNode snMixed,
        buildLayoutChildren snMixed.children⟩).2 (by
      simp +decide [snMixed, snBlockH, snNone, build_layout_tree,
        buildLayoutChildren, StyledNode.display, StyledNode.value, propMap,
        List.lookup])⟩

/-! ## C5: stable ascending cascade sort, last applied declaration wins -/

theorem specLt_ne {s t : Specificity} (h : specLt s t) : s ≠ t := by
  intro he
  subst he
  unfold specLt at h
  omega

/-- Helper: filtering one specificity class commutes with ordered
insertion — the skipped prefix is strictly below the inserted key, so a
newly inserted rule lands in front of its own class and behind no member
of it. -/
theorem filter_orderedInsert_key (s : Specificity) (a : MatchedRule)
    (l : List MatchedRule) :
    (List.orderedInsert matchedRuleLe a l).filter (fun r => r.1 = s)
      = if a.1 = s then a :: l.filter (fun r => r.1 = s)
        else l.filter (fun r => r.1 = s) := by
  induction l with
  | nil =>
      by_cases ha : a.1 = s <;>
        simp [List.orderedInsert, List.filter_cons, ha]
  | cons b t ih =>
      rw [List.orderedInsert]
      by_cases hle : matchedRuleLe a b
      · by_cases ha : a.1 = s <;> simp [hle, List.filter_cons, ha]
      · have hlt : specLt b.1 a.1 := not_specLe_iff.mp hle
        by_cases hb : b.1 = s
        · have ha : ¬ a.1 = s := fun ha => specLt_ne hlt (by rw [hb, ha])
          simp [hle, List.filter_cons, hb, ha, ih]
        · simp [hle, List.filter_cons, hb, ih]

/-- Helper: insertion sort by specificity is stable — each specificity
class of the sorted match list is exactly that class of the unsorted
match list, in the original (stylesheet) order. -/
theorem filter_insertionSort_key (s : Specificity) (l : List MatchedRule) :
    (List.insertionSort matchedRuleLe l).filter (fun r => r.1 = s)
      = l.filter (fun r => r.1 = s) := by
  induction l with
  | nil => rfl
  | cons a t ih =>
      simp only [List.insertionSort]
      rw [filter_orderedInsert_key, ih, List.filter_cons]
      by_cases ha : a.1 = s <;> simp [ha]

/-- Helper: folding `insert` over a declaration list realises
last-wins: the result at `p` is the value of the last declaration named
`p`, else the initial map's answer. -/
theorem foldl_insertDecl_eq (ds : List Declaration) (m : PropertyMap)
    (p : String) :
    (ds.foldl insertDecl m) p
      = (ds.reverse.find? (fun d => d.name = p)).elim (m p)
          (fun d => some d.value) := by
  induction ds generalizing m with
  | nil => rfl
  | cons d t ih =>
      rw [List.foldl_cons, ih, List.reverse_cons, List.find?_append]
      cases hf : t.reverse.find? (fun d => d.name = p) with
      | some d' => simp [hf]
      | none =>
          by_cases hp : d.name = p
          · simp [List.find?_cons, hp, insertDecl]
          · have hp' : ¬ p = d.name := fun h => hp h.symm
            simp [List.find?_cons, hp, hp', insertDecl]

/-- Helper: the nested rule/declaration fold of `specified_values` is the
flat fold over the concatenated declarations. -/
theorem foldl_rules_eq_flatten (rs : List MatchedRule) (m : PropertyMap) :
    rs.foldl (fun values rule => rule.2.declarations.foldl insertDecl values) m
      = ((rs.map (fun rule => rule.2.declarations)).flatten).foldl
          insertDecl m := by
  induction rs generalizing m with
  | nil => rfl
  | cons r t ih => simp [List.foldl_append, ih]

/-- C5: `specified_values` sorts the matched rules ascending by
specificity with a stable sort (each specificity class keeps stylesheet
order), and inserting rule-by-rule into an initially empty map makes the
last-applied declaration win for every property name: the result at `p`
is the value of the last declaration named `p` in the sorted application
order (so a higher-specificity match overrides a lower one, and among
equal specificities the rule later in the stylesheet wins). -/
theorem specified_values_cascade (elem : ElementData)
    (stylesheet : StyleSheet) :
    List.Sorted matchedRuleLe (sortedMatchingRules elem stylesheet)
    ∧ (∀ s : Specificity,
        (sortedMatchingRules elem stylesheet).filter (fun r => r.1 = s)
          = (matching_rules elem stylesheet).filter (fun r => r.1 = s))
    ∧ (∀ p : String,
        specified_values elem stylesheet p
          = ((appliedDeclarations elem stylesheet).reverse.find?
              (fun d => d.name = p)).map (fun d => d.value)) := by
  refine ⟨List.sorted_insertionSort _ _,
    fun s => filter_insertionSort_key s _, fun p => ?_⟩
  unfold specified_values appliedDeclarations
  rw [foldl_rules_eq_flatten, foldl_insertDecl_eq]
  cases hf : ((sortedMatchingRules elem stylesheet).map
      (fun rule => rule.2.declarations)).flatten.reverse.find?
      (fun d => d.name = p) <;> simp [hf]

/-! ## C2: the class branch of simple-selector matching -/

/-- C2 (failing input): the universal selector `*` — and likewise the
bare tag selector `div` — matches nothing, because with the negation
outside the `any` an empty class list makes the class branch fail; the
claim (and the spec) say a selector with no class constraints trivially
satisfies that branch. -/
theorem universal_selector_matches_nothing :
    «matches» elemDiv (.simple universalSelector) = false
    ∧ matches_simple_selector elemDiv ⟨some "div", none, []⟩ = false
    ∧ matches_simple_selector elemDivA ⟨none, none, ["a"]⟩ = true := by
  decide

/-! ## C3: the width-auto branch does not zero auto margins -/

/-- C3 (failing input): with `width` unresolved (auto) and
`margin-left: auto` in an 800-wide containing block, the source assigns
the underflow (800) to the auto margin instead of zeroing it as both the
claim and the code's own comment state; the width itself still becomes
the underflow. -/
theorem auto_width_margin_left_not_zeroed :
    (calc_block_width snAutoMargin defaultDimensions cb800).margin.left = 800
    ∧ (calc_block_width snAutoMargin defaultDimensions cb800).content.width
        = 800
    ∧ (calc_block_width snAutoMargin defaultDimensions cb800).margin.left
        ≠ 0 := by
  refine ⟨?_, ?_, ?_⟩ <;>
    simp +decide [calc_block_width, snAutoMargin, cb800, StyledNode.value,
      StyledNode.lookup, propMap, List.lookup, sum, Value.to_px,
      defaultDimensions, defaultRectangle, defaultEdgeSizes]

/-! ## C6: auto-margin centering -/

/-- C6: a block with `width: 200px` and both margins `auto`, laid out in
a containing block of content width 800, resolves both margins to 300
and keeps its declared width. -/
theorem auto_margin_centering :
    (layout ⟨defaultDimensions, .blockNode snCentered, []⟩
        cb800).dimensions.margin.left = 300
    ∧ (layout ⟨defaultDimensions, .blockNode snCentered, []⟩
        cb800).dimensions.margin.right = 300
    ∧ (layout ⟨defaultDimensions, .blockNode snCentered, []⟩
        cb800).dimensions.content.width = 200 := by
  refine ⟨?_, ?_, ?_⟩ <;>
    simp +decide [layout, layout_block_children, calc_block_width,
      calc_block_position, calc_block_height, snCentered, cb800,
      StyledNode.value, StyledNode.lookup, propMap, List.lookup, sum,
      Value.to_px, defaultDimensions, defaultRectangle, defaultEdgeSizes] <;>
    norm_num

/-! ## C10: asymmetric border shorthand fallbacks -/

/-- C10: horizontal border widths fall back to the property `border`
while vertical ones fall back to `border-width`; consequently a style
declaring only `border: 5px` lays out with left/right borders 5 and
top/bottom borders 0, and a style declaring only `border-width: 5px`
gets the opposite. -/
theorem border_shorthand_asymmetry :
    (∀ (style : StyledNode) (d cb : Dimensions),
      (calc_block_width style d cb).border.left
          = (style.lookup "border-left-width" "border"
              (Value.length 0 .px)).to_px
      ∧ (calc_block_width style d cb).border.right
          = (style.lookup "border-right-width" "border"
              (Value.length 0 .px)).to_px
      ∧ (calc_block_position style d cb).border.top
          = (style.lookup "border-top-width" "border-width"
              (Value.length 0 .px)).to_px
      ∧ (calc_block_position style d cb).border.bottom
          = (style.lookup "border-bottom-width" "border-width"
              (Value.length 0 .px)).to_px)
    ∧ (layout ⟨defaultDimensions, .blockNode snBorder, []⟩
        cb800).dimensions.border = ⟨5, 5, 0, 0⟩
    ∧ (layout ⟨defaultDimensions, .blockNode snBorderWidth, []⟩
        cb800).dimensions.border = ⟨0, 0, 5, 5⟩ := by
  refine ⟨fun style d cb => ⟨rfl, rfl, rfl, rfl⟩, ?_, ?_⟩ <;>
    simp +decide [layout, layout_block_children, calc_block_width,
      calc_block_position, calc_block_height, snBorder, snBorderWidth, cb800,
      StyledNode.value, StyledNode.lookup, propMap, List.lookup, sum,
      Value.to_px, defaultDimensions, defaultRectangle, defaultEdgeSizes]

/-! ## C8: vertical stacking of block children -/

theorem calc_block_height_y (style : StyledNode) (d : Dimensions) :
    (calc_block_height style d).content.y = d.content.y := by
  unfold calc_block_height; split <;> rfl

theorem calc_block_height_margin (style : StyledNode) (d : Dimensions) :
    (calc_block_height style d).margin = d.margin := by
  unfold calc_block_height; split <;> rfl

theorem calc_block_height_border (style : StyledNode) (d : Dimensions) :
    (calc_block_height style d).border = d.border := by
  unfold calc_block_height; split <;> rfl

theorem calc_block_height_padding (style : StyledNode) (d : Dimensions) :
    (calc_block_height style d).padding = d.padding := by
  unfold calc_block_height; split <;> rfl

theorem calc_block_position_y (style : StyledNode) (d cb : Dimensions) :
    (calc_block_position style d cb).content.y
      = cb.content.height + cb.content.y
        + (style.lookup "margin-top" "margin" (Value.length 0 .px)).to_px
        + (style.lookup "border-top-width" "border-width"
            (Value.length 0 .px)).to_px
        + (style.lookup "padding-top" "padding" (Value.length 0 .px)).to_px :=
  rfl

theorem calc_block_position_margin_top (style : StyledNode)
    (d cb : Dimensions) :
    (calc_block_position style d cb).margin.top
      = (style.lookup "margin-top" "margin" (Value.length 0 .px)).to_px :=
  rfl

theorem calc_block_position_border_top (style : StyledNode)
    (d cb : Dimensions) :
    (calc_block_position style d cb).border.top
      = (style.lookup "border-top-width" "border-width"
          (Value.length 0 .px)).to_px :=
  rfl

theorem calc_block_position_padding_top (style : StyledNode)
    (d cb : Dimensions) :
    (calc_block_position style d cb).padding.top
      = (style.lookup "padding-top" "padding" (Value.length 0 .px)).to_px :=
  rfl

/-- Helper: laying out the children leaves every parent dimension except
the content height untouched, and grows the height by the children's
margin-box heights. -/
theorem layout_block_children_snd (cs : List LayoutBox) (d : Dimensions) :
    (layout_block_children cs d).2
      = { d with content.height :=
            d.content.height
              + marginBoxHeights (layout_block_children cs d).1 } := by
  induction cs generalizing d with
  | nil =>
      show d = _
      ext <;> simp [layout_block_children, marginBoxHeights]
  | cons c t ih =>
      simp only [layout_block_children]
      rw [ih]
      ext <;> simp [marginBoxHeights] <;> ring

theorem set_height_content_y (d : Dimensions) (x : ℚ) :
    ({ d with content.height := x } : Dimensions).content.y = d.content.y :=
  rfl

theorem set_height_margin (d : Dimensions) (x : ℚ) :
    ({ d with content.height := x } : Dimensions).margin = d.margin :=
  rfl

theorem set_height_border (d : Dimensions) (x : ℚ) :
    ({ d with content.height := x } : Dimensions).border = d.border :=
  rfl

theorem set_height_padding (d : Dimensions) (x : ℚ) :
    ({ d with content.height := x } : Dimensions).padding = d.padding :=
  rfl

/-- Helper: the dimensions a block box gets from `layout` are the result
of the four phases of `layout_block`. -/
theorem layout_blockNode_dims (n : StyledNode) (d cb : Dimensions)
    (cs : List LayoutBox) :
    (layout ⟨d, .blockNode n, cs⟩ cb).dimensions
      = calc_block_height n
          (layout_block_children cs
            (calc_block_position n (calc_block_width n d cb) cb)).2 := by
  rw [layout]

/-- Helper: the children a block box gets from `layout` are its children
laid out by `layout_block_children` against the width-and-position
resolved dimensions. -/
theorem layout_blockNode_children (n : StyledNode) (d cb : Dimensions)
    (cs : List LayoutBox) :
    (layout ⟨d, .blockNode n, cs⟩ cb).children
      = (layout_block_children cs
          (calc_block_position n (calc_block_width n d cb) cb)).1 := by
  rw [layout]

/-- Helper: a laid-out block box sits at the containing block's content
`y` plus its accumulated content height, offset by the box's own top
margin, border and padding (all as resolved by `calc_block_position`). -/
theorem layout_block_y (b : LayoutBox) (hb : b.isBlock = true)
    (cb : Dimensions) :
    (layout b cb).dimensions.content.y
      = cb.content.y + cb.content.height
        + (layout b cb).dimensions.margin.top
        + (layout b cb).dimensions.border.top
        + (layout b cb).dimensions.padding.top := by
  obtain ⟨d, bt, cs⟩ := b
  cases bt with
  | blockNode n =>
      rw [layout_blockNode_dims, calc_block_height_y,
        calc_block_height_margin, calc_block_height_border,
        calc_block_height_padding, layout_block_children_snd,
        set_height_content_y, set_height_margin, set_height_border,
        set_height_padding, calc_block_position_y,
        calc_block_position_margin_top, calc_block_position_border_top,
        calc_block_position_padding_top]
      ring
  | inlineNode n => simp [LayoutBox.isBlock] at hb
  | anonymousBlock => simp [LayoutBox.isBlock] at hb

/-- Helper: positions of block children laid out in document order: the
i-th child's content `y` is the parent's content `y` plus the height
accumulated so far (initial height plus the margin-box heights of the
earlier siblings) plus the child's own top edges. -/
theorem layout_block_children_stacking (cs : List LayoutBox)
    (d : Dimensions) (hblk : ∀ c ∈ cs, c.isBlock = true) :
    (layout_block_children cs d).1.length = cs.length
    ∧ ∀ i (hi : i < (layout_block_children cs d).1.length),
        ((layout_block_children cs d).1.get ⟨i, hi⟩).dimensions.content.y
          = d.content.y + d.content.height
            + marginBoxHeights ((layout_block_children cs d).1.take i)
            + ((layout_block_children cs d).1.get
                ⟨i, hi⟩).dimensions.margin.top
            + ((layout_block_children cs d).1.get
                ⟨i, hi⟩).dimensions.border.top
            + ((layout_block_children cs d).1.get
                ⟨i, hi⟩).dimensions.padding.top := by
  induction cs generalizing d with
  | nil =>
      exact ⟨rfl, fun i hi => absurd hi (by simp [layout_block_children])⟩
  | cons c t ih =>
      have hc : c.isBlock = true := hblk c (List.mem_cons_self c t)
      have ht : ∀ x ∈ t, x.isBlock = true :=
        fun x hx => hblk x (List.mem_cons_of_mem c hx)
      simp only [layout_block_children]
      refine ⟨by simpa using (ih _ ht).1, ?_⟩
      intro i hi
      match i with
      | 0 =>
          show (layout c d).dimensions.content.y = _
          rw [layout_block_y c hc d]
          simp [marginBoxHeights]
      | Nat.succ j =>
          simp only [List.get_cons_succ, List.take_succ_cons]
          have hj : j < (layout_block_children t
              { d with content.height :=
                  d.content.height
                    + ((layout c d).dimensions.margin_box).height
              }).1.length := by
            simpa using hi
          have hys := (ih _ ht).2 j hj
          rw [hys]
          simp [marginBoxHeights]
          ring

/-- C8: children of a block box are laid out in document order, each
child's content `y` is the parent's content `y` plus the accumulated
content height plus the child's own top margin, border and padding, and
after each child the parent's content height grows by the child's full
margin-box height; concretely, sibling blocks of margin-box heights 50
and 30 in a parent starting at content `y = 0` land at `y = 0` and
`y = 50`, with the parent's content height ending at 80. -/
theorem block_children_vertical_stacking :
    (∀ (cs : List LayoutBox) (d : Dimensions),
      (∀ c ∈ cs, c.isBlock = true) →
        (layout_block_children cs d).2
            = { d with content.height :=
                d.content.height
                  + marginBoxHeights (layout_block_children cs d).1 }
        ∧ (layout_block_children cs d).1.length = cs.length
        ∧ ∀ i (hi : i < (layout_block_children cs d).1.length),
            ((layout_block_children cs d).1.get ⟨i, hi⟩).dimensions.content.y
              = d.content.y + d.content.height
                + marginBoxHeights ((layout_block_children cs d).1.take i)
                + ((layout_block_children cs d).1.get
                    ⟨i, hi⟩).dimensions.margin.top
                + ((layout_block_children cs d).1.get
                    ⟨i, hi⟩).dimensions.border.top
                + ((layout_block_children cs d).1.get
                    ⟨i, hi⟩).dimensions.padding.top)
    ∧ (layout boxParent5030 cb800).children.map
        (fun c => c.dimensions.content.y) = [0, 50]
    ∧ (layout boxParent5030 cb800).dimensions.content.height = 80 := by
  refine ⟨fun cs d hblk =>
    ⟨layout_block_children_snd cs d,
     (layout_block_children_stacking cs d hblk).1,
     (layout_block_children_stacking cs d hblk).2⟩,
    ?_, ?_⟩ <;>
    simp +decide [boxParent5030, snParent5030, snBlockH, build_layout_tree,
      buildLayoutChildren, StyledNode.display, layout, layout_block_children,
      calc_block_width, calc_block_position, calc_block_height,
      Dimensions.margin_box, Dimensions.border_box, Dimensions.padding_box,
      Rectangle.expanded_by, cb800, StyledNode.value, StyledNode.lookup,
      propMap, List.lookup, sum, Value.to_px, defaultDimensions,
      defaultRectangle, defaultEdgeSizes] <;>
    norm_num

/-! ## C4: layout re-run on the same box tree accumulates height -/

theorem calc_block_width_content_height (style : StyledNode)
    (d cb : Dimensions) :
    (calc_block_width style d cb).content.height = d.content.height :=
  rfl

theorem calc_block_position_content_height (style : StyledNode)
    (d cb : Dimensions) :
    (calc_block_position style d cb).content.height = d.content.height :=
  rfl

theorem calc_block_height_x (style : StyledNode) (d : Dimensions) :
    (calc_block_height style d).content.x = d.content.x := by
  unfold calc_block_height; split <;> rfl

theorem calc_block_height_width (style : StyledNode) (d : Dimensions) :
    (calc_block_height style d).content.width = d.content.width := by
  unfold calc_block_height; split <;> rfl

/-- C4 (amended): laying out a box with no children is idempotent — every
dimension it computes depends only on the style and the containing block,
and the content height is preserved (or pinned by an explicit `height`). -/
theorem layout_idempotent_of_no_children (b : LayoutBox)
    (hb : b.children = []) (cb : Dimensions) :
    layout (layout b cb) cb = layout b cb := by
  obtain ⟨d, bt, cs⟩ := b
  have hcs : cs = [] := hb
  subst hcs
  cases bt with
  | blockNode n =>
      have hbox : ∀ x : Dimensions,
          layout ⟨x, .blockNode n, []⟩ cb
            = ⟨calc_block_height n
                (calc_block_position n (calc_block_width n x cb) cb),
               .blockNode n, []⟩ := by
        intro x
        rw [layout, layout_block_children]
      rw [hbox, hbox]
      congr 1
      ext <;>
        first
          | (simp only [calc_block_height_margin, calc_block_height_border,
               calc_block_height_padding, calc_block_height_y,
               calc_block_height_x, calc_block_height_width]
             rfl)
          | (cases hv : n.value "height" with
             | none =>
                 simp [calc_block_height, hv,
                   calc_block_width_content_height,
                   calc_block_position_content_height]
             | some v =>
                 cases v with
                 | length f u =>
                     cases u
                     simp [calc_block_height, hv]
                 | keyword s =>
                     simp [calc_block_height, hv,
                       calc_block_width_content_height,
                       calc_block_position_content_height]
                 | colorValue c =>
                     simp [calc_block_height, hv,
                       calc_block_width_content_height,
                       calc_block_position_content_height])
  | inlineNode n => simp [layout]
  | anonymousBlock => simp [layout]

/-- Witness for the amended C4 at a concrete childless block box. -/
theorem layout_idempotent_of_no_children_witness :
    layout (layout ⟨defaultDimensions, .blockNode (snBlockH 50), []⟩ cb800)
        cb800
      = layout ⟨defaultDimensions, .blockNode (snBlockH 50), []⟩ cb800 :=
  layout_idempotent_of_no_children
    ⟨defaultDimensions, .blockNode (snBlockH 50), []⟩ rfl cb800

/-- Counterexample to C4 as stated: laying out the (freshly built) box
tree of a block parent with one 50px-high block child gives the parent
content height 50, but laying out the resulting tree again gives 100 —
the re-run adds the child's margin-box height on top of the previous
height, so the dimensions are not identical across repeated layout
calls on the same tree. -/
theorem layout_twice_accumulates_height :
    (layout boxParent50 cb800).dimensions.content.height = 50
    ∧ (layout (layout boxParent50 cb800) cb800).dimensions.content.height
        = 100
    ∧ (layout (layout boxParent50 cb800) cb800).dimensions
        ≠ (layout boxParent50 cb800).dimensions := by
  have h1 : (layout boxParent50 cb800).dimensions.content.height = 50 := by
    simp +decide [boxParent50, snParent50, snBlockH, build_layout_tree,
      buildLayoutChildren, StyledNode.display, layout, layout_block_children,
      calc_block_width, calc_block_position, calc_block_height,
      Dimensions.margin_box, Dimensions.border_box, Dimensions.padding_box,
      Rectangle.expanded_by, cb800, StyledNode.value, StyledNode.lookup,
      propMap, List.lookup, sum, Value.to_px, defaultDimensions,
      defaultRectangle, defaultEdgeSizes]
  have h2 : (layout (layout boxParent50 cb800) cb800).dimensions.content.height
      = 100 := by
    simp +decide [boxParent50, snParent50, snBlockH, build_layout_tree,
      buildLayoutChildren, StyledNode.display, layout, layout_block_children,
      calc_block_width, calc_block_position, calc_block_height,
      Dimensions.margin_box, Dimensions.border_box, Dimensions.padding_box,
      Rectangle.expanded_by, cb800, StyledNode.value, StyledNode.lookup,
      propMap, List.lookup, sum, Value.to_px, defaultDimensions,
      defaultRectangle, defaultEdgeSizes]
    norm_num
  refine ⟨h1, h2, fun heq => ?_⟩
  rw [heq, h1] at h2
  norm_num at h2

/-- Witness for C8 at two directly constructed block boxes and the
800-wide containing block. -/
theorem block_children_vertical_stacking_witness :
    (layout_block_children
        [⟨defaultDimensions, .blockNode (snBlockH 50), []⟩,
         ⟨defaultDimensions, .blockNode (snBlockH 30), []⟩] cb800).2
        = { cb800 with content.height :=
            cb800.content.height
              + marginBoxHeights (layout_block_children
                  [⟨defaultDimensions, .blockNode (snBlockH 50), []⟩,
                   ⟨defaultDimensions, .blockNode (snBlockH 30), []⟩]
                  cb800).1 }
    ∧ (layout_block_children
        [⟨defaultDimensions, .blockNode (snBlockH 50), []⟩,
         ⟨defaultDimensions, .blockNode (snBlockH 30), []⟩] cb800).1.length
        = 2
    ∧ ∀ i (hi : i < (layout_block_children
        [⟨defaultDimensions, .blockNode (snBlockH 50), []⟩,
         ⟨defaultDimensions, .blockNode (snBlockH 30), []⟩]
        cb800).1.length),
        ((layout_block_children
            [⟨defaultDimensions, .blockNode (snBlockH 50), []⟩,
             ⟨defaultDimensions, .blockNode (snBlockH 30), []⟩]
            cb800).1.get ⟨i, hi⟩).dimensions.content.y
          = cb800.content.y + cb800.content.height
            + marginBoxHeights ((layout_block_children
                [⟨defaultDimensions, .blockNode (snBlockH 50), []⟩,
                 ⟨defaultDimensions, .blockNode (snBlockH 30), []⟩]
                cb800).1.take i)
            + ((layout_block_children
                [⟨defaultDimensions, .blockNode (snBlockH 50), []⟩,
                 ⟨defaultDimensions, .blockNode (snBlockH 30), []⟩]
                cb800).1.get ⟨i, hi⟩).dimensions.margin.top
            + ((layout_block_children
                [⟨defaultDimensions, .blockNode (snBlockH 50), []⟩,
                 ⟨defaultDimensions, .blockNode (snBlockH 30), []⟩]
                cb800).1.get ⟨i, hi⟩).dimensions.border.top
            + ((layout_block_children
                [⟨defaultDimensions, .blockNode (snBlockH 50), []⟩,
                 ⟨defaultDimensions, .blockNode (snBlockH 30), []⟩]
                cb800).1.get ⟨i, hi⟩).dimensions.padding.top :=
  block_children_vertical_stacking.1
    [⟨defaultDimensions, .blockNode (snBlockH 50), []⟩,
     ⟨defaultDimensions, .blockNode (snBlockH 30), []⟩] cb800 (by decide)

end SimpleBrowser
